import Mathlib

/-!
Verification of the SmartExam / Q-Verifier question-paper compiler
(semantic.c, ast_helpers.c, ast.h, main.c) against its natural-language
specification.  The C code is shallowly embedded: linked lists become
Lean lists, C strings become Lean strings modelled as character lists,
and the driver's interactions with the external lexer/parser become
explicit parameters.
-/

namespace SmartExam

/- ### Substring search, modelling C `strstr` (case-sensitive) -/

/-- Truth of `hasLead needle hay` says that `needle` occurs at the very start of
`hay` (character-by-character, case-sensitive). -/
def hasLead : List Char → List Char → Bool
  | [], _ => true
  | _ :: _, [] => false
  | a :: as, b :: bs => a == b && hasLead as bs

/-- Truth of `occursIn needle hay` says that `needle` occurs as a contiguous
substring of `hay`; this models `strstr(hay, needle) != NULL`. -/
def occursIn (needle : List Char) : List Char → Bool
  | [] => needle.isEmpty
  | c :: rest => hasLead needle (c :: rest) || occursIn needle rest

/-- Models the C expression: `strstrFound hay needle` is
`strstr(hay, needle) != NULL` on NUL-free strings. -/
def strstrFound (hay needle : String) : Bool :=
  occursIn needle.toList hay.toList

/- ### Data model from semantic.c -/

/-- The `Question` struct of semantic.c (the `next` pointer is replaced by
list structure). -/
structure SQuestion where
  number : Int
  text : String
  marks : Int
  difficulty : String
deriving DecidableEq, Repr

/-- The marks-summing loop of `validate_marks`: walks the list with the
running accumulator `sum += ptr->marks`. -/
def sumLoop (acc : Int) : List SQuestion → Int
  | [] => acc
  | q :: rest => sumLoop (acc + q.marks) rest

/-- The function `validate_marks` from semantic.c: computes the sum of all question
marks and compares it with the declared total.  The C function prints the
sum and returns 1/0; we expose the pair (computed sum, match flag). -/
def validate_marks (head : List SQuestion) (declared_total : Int) : Int × Bool :=
  let sum := sumLoop 0 head
  (sum, sum == declared_total)

/-- The traversal of `validate_marks` made state-explicit: each node the
loop visits is returned unchanged, mirroring that the C loop only reads
`ptr->marks` and `ptr->next` and performs no writes to the list. -/
def validate_marks_run : List SQuestion → Int → List SQuestion × Int
  | [], acc => ([], acc)
  | q :: rest, acc =>
    let r := validate_marks_run rest (acc + q.marks)
    (q :: r.1, r.2)

/- ### Difficulty classifier from semantic.c -/

/-- Keyword test of the first rule of `classify_difficulty`:
`strstr(text, "define") || strstr(text, "state")`. -/
def kwEasy (text : String) : Bool :=
  strstrFound text "define" || strstrFound text "state"

/-- Keyword test of the second rule of `classify_difficulty`:
`strstr(text, "explain") || strstr(text, "prove")`. -/
def kwMed (text : String) : Bool :=
  strstrFound text "explain" || strstrFound text "prove"

/-- Keyword test of the third rule of `classify_difficulty`:
`strstr(text, "design") || strstr(text, "construct") || strstr(text, "optimize")`. -/
def kwHard (text : String) : Bool :=
  strstrFound text "design" || strstrFound text "construct" ||
    strstrFound text "optimize"

/-- The function `classify_difficulty` from semantic.c: ordered keyword rules over the
raw text, first match wins, default "MEDIUM".  Note that C `strstr` is
case-sensitive. -/
def classify_difficulty (text : String) : String :=
  if kwEasy text then "EASY"
  else if kwMed text then "MEDIUM"
  else if kwHard text then "HARD"
  else "MEDIUM"

/-- ASCII lowercasing of a character list. -/
def lowerList (cs : List Char) : List Char :=
  cs.map Char.toLower

/-- Case-insensitive variant of `strstrFound`, used only by the
spec-modelled Bloom's classifier. -/
def ciFound (hay needle : String) : Bool :=
  occursIn (lowerList needle.toList) (lowerList hay.toList)

/-- Case-insensitive first-rule keyword test used by the spec-modelled
Bloom's classifier. -/
def bkEasy (text : String) : Bool :=
  ciFound text "define" || ciFound text "state"

/-- Case-insensitive second-rule keyword test used by the spec-modelled
Bloom's classifier. -/
def bkMed (text : String) : Bool :=
  ciFound text "explain" || ciFound text "prove"

/-- Case-insensitive third-rule keyword test used by the spec-modelled
Bloom's classifier. -/
def bkHard (text : String) : Bool :=
  ciFound text "design" || ciFound text "construct" || ciFound text "optimize"

/-- Modelled from the spec: the Bloom's-level output of the
Difficulty/Bloom's Classifier is absent from the source
(`classify_difficulty` returns only a difficulty string); following
spec §4.3 it applies the same ordered keyword rules with case-insensitive
substring matching and falls back to "Understanding". -/
def classify_blooms (text : String) : String :=
  if bkEasy text then "Remembering"
  else if bkMed text then "Analyzing"
  else if bkHard text then "Creating"
  else "Understanding"

/- ### AST data model from ast.h / ast_helpers.c -/

/-- The `QuestionNode` struct of ast.h (the `next` pointer is replaced by
list structure). -/
structure QuestionNode where
  text : String
  marks : Int
  difficulty : String
  estimated_time : Int
  syllabus_topic : String
  status_flag : Int
  blooms_level : String
deriving DecidableEq, Repr

/-- The `ASTNode` struct of ast.h: the document root, owning the ordered
question list. -/
structure ASTNode where
  subject : String
  total_marks : Int
  total_time : Int
  syllabus_path : String
  questions : List QuestionNode
deriving DecidableEq, Repr

/-- The function `create_question_node` from ast_helpers.c: copies text and marks and
initialises every Phase 3 annotation field to its sentinel ("N/A" strings,
`estimated_time = 0`, `status_flag = 0`). -/
def create_question_node (text : String) (marks : Int) : QuestionNode :=
  { text := text
    marks := marks
    difficulty := "N/A"
    estimated_time := 0
    syllabus_topic := "N/A"
    status_flag := 0
    blooms_level := "N/A" }

/-- The function `append_question` from ast_helpers.c: appends one node at the tail of
the question list. -/
def append_question (list_head : List QuestionNode) (new_question : QuestionNode) :
    List QuestionNode :=
  list_head ++ [new_question]

/- ### DOT export from ast_helpers.c -/

/-- One line emitted by `export_ast_to_dot`: boilerplate text, a node
statement `id [label="..."]`, or an edge statement `from -> to`. -/
inductive DotLine where
  | plain : String → DotLine
  | node : String → String → DotLine
  | edge : String → String → DotLine
deriving DecidableEq, Repr

/-- The label text `export_ast_to_dot` prints for the root node. -/
def rootLabel (root : ASTNode) : String :=
  "Q-Verifier AST\\nSubject: " ++ root.subject ++ "\\nMarks: " ++
    toString root.total_marks ++ "\\nTime: " ++ toString root.total_time ++ " min"

/-- The label text `export_ast_to_dot` prints for question node `i`: the
text preview is the literal placeholder `TODO: Substring` (see the C
comment "Need a helper to show just first 20 chars"), followed by the
question's marks. -/
def qLabel (q : QuestionNode) : String :=
  "Q_TEXT: " ++ "TODO: Substring" ++ "...\\nQ_MARKS: " ++ toString q.marks

/-- The question loop of `export_ast_to_dot`: for the question at running
index `i`, one node statement `q<i>` and one edge `root -> q<i>`. -/
def questionLines (i : Nat) : List QuestionNode → List DotLine
  | [] => []
  | q :: rest =>
    DotLine.node ("q" ++ toString i) (qLabel q)
      :: DotLine.edge "root" ("q" ++ toString i)
      :: questionLines (i + 1) rest

/-- The function `export_ast_to_dot` from ast_helpers.c, as the sequence of statements
written to the .dot file (file opening handled by the caller's
environment; on open failure nothing is written). -/
def export_ast_to_dot (root : ASTNode) : List DotLine :=
  DotLine.plain "digraph AST \x7b"
    :: DotLine.plain "  node [shape=box, style=\"filled\", fillcolor=\"lightblue\"];"
    :: DotLine.node "root" (rootLabel root)
    :: (questionLines 0 root.questions ++ [DotLine.plain "\x7d"])

/-- The ids of the node statements of a .dot line sequence, in emission
order. -/
def dotNodeIds : List DotLine → List String
  | [] => []
  | DotLine.node i _ :: rest => i :: dotNodeIds rest
  | _ :: rest => dotNodeIds rest

/-- The (id, label) pairs of the node statements, in emission order. -/
def dotNodes : List DotLine → List (String × String)
  | [] => []
  | DotLine.node i l :: rest => (i, l) :: dotNodes rest
  | _ :: rest => dotNodes rest

/-- The (source, target) pairs of the edge statements, in emission order. -/
def dotEdges : List DotLine → List (String × String)
  | [] => []
  | DotLine.edge a b :: rest => (a, b) :: dotEdges rest
  | _ :: rest => dotEdges rest

/-- A concrete fully annotated question, used to exhibit what the export
writes into a question label. -/
def cexQuestion : QuestionNode :=
  { text := "Hello world question"
    marks := 5
    difficulty := "Easy"
    estimated_time := 0
    syllabus_topic := "Algorithms"
    status_flag := 0
    blooms_level := "Remembering" }

/-- A concrete one-question document for the export label check. -/
def cexDoc : ASTNode :=
  { subject := "CS"
    total_marks := 5
    total_time := 60
    syllabus_path := "syllabus.txt"
    questions := [cexQuestion] }

/- ### Driver from main.c -/

/-- The driver `main` from main.c, as a function of the outcomes of its external
interactions: `argc`, whether `fopen` on `<job>/input.qp` succeeds,
the value returned by `yyparse`, and the global `root` the parser left
behind.  Returns the process exit status. -/
def mainDriver (argc : Nat) (openOk : Bool) (parse_result : Int)
    (root : Option ASTNode) : Nat :=
  if argc ≠ 2 then 1
  else if !openOk then 1
  else if parse_result ≠ 0 ∨ root = none then 1
  else 0

/- ### Duplicate detector (spec-modelled) -/

/-- Splits a character list into its nonempty space-separated words
(`cur` accumulates the characters of the word being read, reversed). -/
def wordsAux (cur : List Char) : List Char → List (List Char)
  | [] => if cur.isEmpty then [] else [cur.reverse]
  | c :: rest =>
    if c = ' ' then
      if cur.isEmpty then wordsAux [] rest
      else cur.reverse :: wordsAux [] rest
    else wordsAux (c :: cur) rest

/-- Removes repeated words, keeping the first occurrence of each. -/
def dedupWords (seen : List (List Char)) : List (List Char) → List (List Char)
  | [] => []
  | w :: rest =>
    if seen.contains w then dedupWords seen rest
    else w :: dedupWords (seen ++ [w]) rest

/-- Modelled from the spec: the case-insensitive word set of a question
text used by the Duplicate Detector, which is absent from the source
(spec §9: "no duplicate-detection logic present at all").  Words are the
nonempty space-separated tokens of the lowercased text, without
repetitions. -/
def tokenSet (s : String) : List (List Char) :=
  dedupWords [] (wordsAux [] (lowerList s.toList))

/-- Modelled from the spec: the token-overlap similarity test of the
Duplicate Detector.  With `ta`, `tb` the word sets, the similarity is
`|ta ∩ tb| / |ta ∪ tb|`; `simMeets a b num den` decides
`similarity ≥ num / den` by cross-multiplication, the threshold
`num / den` being a parameter because the spec fixes no value (§9). -/
def simMeets (a b : String) (num den : Nat) : Bool :=
  let ta := tokenSet a
  let tb := tokenSet b
  let inter := (ta.filter (fun w => tb.contains w)).length
  let union := ta.length + (tb.filter (fun w => !ta.contains w)).length
  num * union ≤ inter * den

/-- Modelled from the spec: the marking loop of the Duplicate Detector.
`prev` holds the questions already passed (earlier in exam order); the
question under scrutiny is marked iff some earlier question's similarity
with it meets the threshold. -/
def dupFlagsAux (num den : Nat) (prev : List String) : List String → List Bool
  | [] => []
  | q :: rest =>
    prev.any (fun p => simMeets p q num den)
      :: dupFlagsAux num den (prev ++ [q]) rest

/-- Modelled from the spec: the Duplicate Detector over the full ordered
question-text sequence; entry `j` of the result says whether question `j`
is marked as a duplicate candidate. -/
def dupFlags (qs : List String) (num den : Nat) : List Bool :=
  dupFlagsAux num den [] qs

/-- A concrete question sequence for the duplicate-detector witness: the
texts at positions 0 and 2 are identical. -/
def dupDemo : List String :=
  ["define a", "other words here", "define a"]

/-! ## Helper lemmas -/

/-- The marks-summing loop computes the accumulator plus the list sum. -/
theorem sumLoop_eq (acc : Int) (qs : List SQuestion) :
    sumLoop acc qs = acc + (qs.map SQuestion.marks).sum := by
  induction qs generalizing acc with
  | nil => simp [sumLoop]
  | cons q rest ih => simp [sumLoop, ih]; ring

/-- A needle is a lead of itself followed by anything. -/
theorem hasLead_append_self (xs ys : List Char) : hasLead xs (xs ++ ys) = true := by
  induction xs with
  | nil => rfl
  | cons a as ih => simp [hasLead, ih]

/-- The empty needle occurs in every haystack. -/
theorem occursIn_nil_needle (l : List Char) : occursIn [] l = true := by
  cases l <;> simp [occursIn, hasLead, List.isEmpty]

/-- A needle occurs in any haystack of which it is an infix part. -/
theorem occursIn_append_self (n pre ys : List Char) :
    occursIn n (pre ++ (n ++ ys)) = true := by
  induction pre with
  | nil =>
    cases n with
    | nil => simpa using occursIn_nil_needle ys
    | cons a as => simp [occursIn, hasLead, hasLead_append_self]
  | cons c pre ih => simp [occursIn, ih]

/-- A needle occurs at the end of any haystack it closes. -/
theorem occursIn_append_right (n pre : List Char) :
    occursIn n (pre ++ n) = true := by
  simpa using occursIn_append_self n pre []

/-- The extraction `dotNodes` distributes over list append. -/
theorem dotNodes_append (a b : List DotLine) :
    dotNodes (a ++ b) = dotNodes a ++ dotNodes b := by
  induction a with
  | nil => rfl
  | cons x rest ih => cases x <;> simp [dotNodes, ih]

/-- The extraction `dotEdges` distributes over list append. -/
theorem dotEdges_append (a b : List DotLine) :
    dotEdges (a ++ b) = dotEdges a ++ dotEdges b := by
  induction a with
  | nil => rfl
  | cons x rest ih => cases x <;> simp [dotEdges, ih]

/-- The node ids are the first components of the node statements. -/
theorem dotNodeIds_eq_map (l : List DotLine) :
    dotNodeIds l = (dotNodes l).map Prod.fst := by
  induction l with
  | nil => rfl
  | cons x rest ih => cases x <;> simp [dotNodes, dotNodeIds, ih]

/-- The node statements emitted by the question loop: one node `q<idx>`
per question, labels as printed, indices counting from `i` in list
order. -/
theorem dotNodes_questionLines (i : Nat) (qs : List QuestionNode) :
    dotNodes (questionLines i qs)
      = (List.enumFrom i qs).map (fun p => ("q" ++ toString p.1, qLabel p.2)) := by
  induction qs generalizing i with
  | nil => rfl
  | cons q rest ih => simp [questionLines, dotNodes, List.enumFrom, ih]

/-- The edge statements emitted by the question loop: one edge from
`root` to `q<idx>` per question, indices counting from `i`. -/
theorem dotEdges_questionLines (i : Nat) (qs : List QuestionNode) :
    dotEdges (questionLines i qs)
      = (List.enumFrom i qs).map (fun p => ("root", "q" ++ toString p.1)) := by
  induction qs generalizing i with
  | nil => rfl
  | cons q rest ih => simp [questionLines, dotEdges, List.enumFrom, ih]

/-- Every label the question loop emits shows the question's marks. -/
theorem qLabel_shows_marks (q : QuestionNode) :
    occursIn (toString q.marks).toList (qLabel q).toList = true := by
  have h : (qLabel q).toList
      = ("Q_TEXT: " ++ "TODO: Substring" ++ "...\\nQ_MARKS: ").toList
        ++ (toString q.marks).toList := by
    simp [qLabel, String.toList, String.data_append]
  rw [h]
  exact occursIn_append_right _ _

/-- The duplicate-marking loop yields one flag per question. -/
theorem dupFlagsAux_length (num den : Nat) (prev qs : List String) :
    (dupFlagsAux num den prev qs).length = qs.length := by
  induction qs generalizing prev with
  | nil => rfl
  | cons q rest ih => simp [dupFlagsAux, ih]

/-- The flag the marking loop leaves at position `j` is set iff some
question already passed — in `prev` or among the first `j` of the list —
meets the similarity threshold with question `j`. -/
theorem dupFlagsAux_getD (num den : Nat) (prev qs : List String) (j : Nat)
    (hj : j < qs.length) :
    ((dupFlagsAux num den prev qs).getD j false = true
      ↔ ∃ p ∈ prev ++ qs.take j, simMeets p (qs.getD j "") num den = true) := by
  induction qs generalizing prev j with
  | nil => simp at hj
  | cons q rest ih =>
    cases j with
    | zero => simp [dupFlagsAux, List.any_eq_true]
    | succ j' =>
      have hj' : j' < rest.length := by simpa using hj
      simp only [dupFlagsAux, List.getD_cons_succ, List.take_succ_cons]
      rw [ih (prev ++ [q]) j' hj']
      simp [List.append_assoc]

/-- The marking loop treats a question list segment by segment: flags for
an appended tail are computed with the front segment joined onto the
already-passed questions, and the front segment's flags are unchanged. -/
theorem dupFlagsAux_append (num den : Nat) (prev qs extra : List String) :
    dupFlagsAux num den prev (qs ++ extra)
      = dupFlagsAux num den prev qs ++ dupFlagsAux num den (prev ++ qs) extra := by
  induction qs generalizing prev with
  | nil => simp [dupFlagsAux]
  | cons q rest ih => simp [dupFlagsAux, ih, List.append_assoc]

/-! ## Claims -/

/-- C1 (failing inputs): `classify_difficulty` matches its keywords with the
case-sensitive `strstr`, so the spec's two example texts — whose keywords
are capitalised — match no rule and fall through to the default "MEDIUM",
while their lowercased variants classify as the spec expects. -/
theorem classify_difficulty_case_sensitive_bug :
    classify_difficulty "Define compiler and interpreter." = "MEDIUM"
    ∧ classify_difficulty "Construct DFA for (a|b)*abb." = "MEDIUM"
    ∧ classify_difficulty "define compiler and interpreter." = "EASY"
    ∧ classify_difficulty "construct DFA for (a|b)*abb." = "HARD" := by
  decide

/-- C2: `validate_marks` computes exactly the arithmetic sum of the
question marks, this sum is invariant under permutations of the question
list, the match flag is true iff the sum equals the declared total, and a
declared total of 0 matches iff the sum is 0. -/
theorem validate_marks_correct (qs qsPerm : List SQuestion) (t : Int)
    (hperm : qs.Perm qsPerm) :
    (validate_marks qs t).1 = (qs.map SQuestion.marks).sum
    ∧ ((validate_marks qs t).2 = true ↔ (qs.map SQuestion.marks).sum = t)
    ∧ (validate_marks qsPerm t).1 = (validate_marks qs t).1
    ∧ ((validate_marks qs 0).2 = true ↔ (qs.map SQuestion.marks).sum = 0) := by
  refine ⟨by simp [validate_marks, sumLoop_eq], ?_, ?_, ?_⟩
  · simp [validate_marks, sumLoop_eq]
  · simp [validate_marks, sumLoop_eq, (hperm.map SQuestion.marks).sum_eq]
  · simp [validate_marks, sumLoop_eq]

/-- Witness for C2 at the spec's concrete scenario (marks 10, 10, 12,
declared total 32) and a permutation of it. -/
theorem validate_marks_correct_witness :
    ([⟨1, "Define compiler and interpreter.", 10, ""⟩,
      ⟨2, "Explain the phases of compiler design.", 10, ""⟩,
      ⟨3, "Construct DFA for (a|b)*abb.", 12, ""⟩] : List SQuestion).Perm
      [⟨3, "Construct DFA for (a|b)*abb.", 12, ""⟩,
       ⟨1, "Define compiler and interpreter.", 10, ""⟩,
       ⟨2, "Explain the phases of compiler design.", 10, ""⟩]
    ∧ (validate_marks
        [⟨1, "Define compiler and interpreter.", 10, ""⟩,
         ⟨2, "Explain the phases of compiler design.", 10, ""⟩,
         ⟨3, "Construct DFA for (a|b)*abb.", 12, ""⟩] 32).1
        = (([⟨1, "Define compiler and interpreter.", 10, ""⟩,
             ⟨2, "Explain the phases of compiler design.", 10, ""⟩,
             ⟨3, "Construct DFA for (a|b)*abb.", 12, ""⟩] : List SQuestion).map
            SQuestion.marks).sum := by
  refine ⟨by decide, ?_⟩
  exact (validate_marks_correct
    [⟨1, "Define compiler and interpreter.", 10, ""⟩,
     ⟨2, "Explain the phases of compiler design.", 10, ""⟩,
     ⟨3, "Construct DFA for (a|b)*abb.", 12, ""⟩]
    [⟨3, "Construct DFA for (a|b)*abb.", 12, ""⟩,
     ⟨1, "Define compiler and interpreter.", 10, ""⟩,
     ⟨2, "Explain the phases of compiler design.", 10, ""⟩] 32 (by decide)).1

/-- C3: difficulty classification is a pure function of the text
(identical text gives identical results), and the rule order is decisive:
whenever the first rule's keywords occur the result is "EASY" no matter
what else occurs; the second rule gives "MEDIUM" only when the first does
not fire; the third gives "HARD" only when the first two do not fire. -/
theorem classify_difficulty_priority (s t : String) :
    (s = t → classify_difficulty s = classify_difficulty t)
    ∧ (kwEasy s = true → classify_difficulty s = "EASY")
    ∧ (kwEasy s = false → kwMed s = true → classify_difficulty s = "MEDIUM")
    ∧ (kwEasy s = false → kwMed s = false → kwHard s = true →
        classify_difficulty s = "HARD") := by
  refine ⟨fun h => by rw [h], fun h1 => ?_, fun h1 h2 => ?_, fun h1 h2 h3 => ?_⟩ <;>
    simp [classify_difficulty, h1]
  · simp [h2]
  · simp [h2, h3]

/-- Witness for C3: a text containing keywords of both the first rule
("define") and the third rule ("construct") classifies as "EASY" — the
earliest rule wins. -/
theorem classify_difficulty_priority_witness :
    kwEasy "define and construct a machine" = true
    ∧ classify_difficulty "define and construct a machine" = "EASY" :=
  ⟨by decide,
   (classify_difficulty_priority "define and construct a machine"
      "define and construct a machine").2.1 (by decide)⟩

/-- C4: the classifier is total — its result is always one of "EASY",
"MEDIUM" or "HARD", never an unset placeholder; when no keyword rule
fires it falls back to "MEDIUM" (difficulty) and "Understanding"
(spec-modelled Bloom's level); in particular "Summarize the topic."
resolves to "MEDIUM" / "Understanding". -/
theorem classify_difficulty_total_fallback (s : String) :
    (classify_difficulty s = "EASY" ∨ classify_difficulty s = "MEDIUM"
      ∨ classify_difficulty s = "HARD")
    ∧ (kwEasy s = false → kwMed s = false → kwHard s = false →
        classify_difficulty s = "MEDIUM")
    ∧ (bkEasy s = false → bkMed s = false → bkHard s = false →
        classify_blooms s = "Understanding")
    ∧ classify_difficulty "Summarize the topic." = "MEDIUM"
    ∧ classify_blooms "Summarize the topic." = "Understanding" := by
  refine ⟨?_, fun h1 h2 h3 => ?_, fun h1 h2 h3 => ?_, by decide, by decide⟩
  · unfold classify_difficulty
    split_ifs <;> simp
  · simp [classify_difficulty, h1, h2, h3]
  · simp [classify_blooms, h1, h2, h3]

/-- Witness for C4 at the spec's fallback scenario "Summarize the
topic.", which fires none of the six keyword tests. -/
theorem classify_difficulty_total_fallback_witness :
    kwEasy "Summarize the topic." = false
    ∧ kwMed "Summarize the topic." = false
    ∧ kwHard "Summarize the topic." = false
    ∧ bkEasy "Summarize the topic." = false
    ∧ bkMed "Summarize the topic." = false
    ∧ bkHard "Summarize the topic." = false
    ∧ classify_difficulty "Summarize the topic." = "MEDIUM"
    ∧ classify_blooms "Summarize the topic." = "Understanding" :=
  ⟨by decide, by decide, by decide, by decide, by decide, by decide,
   (classify_difficulty_total_fallback "Summarize the topic.").2.1
     (by decide) (by decide) (by decide),
   (classify_difficulty_total_fallback "Summarize the topic.").2.2.1
     (by decide) (by decide) (by decide)⟩

/-- C5 (amended): for every document the export emits exactly one root
node followed by exactly one node per question with ids `q0, q1, ...` in
position-index order, and exactly one edge from `root` to each question
node in the same order; every question node's label shows the question's
marks (the text preview is a fixed placeholder and the label carries no
status or difficulty). -/
theorem export_ast_shape (d : ASTNode) :
    dotNodeIds (export_ast_to_dot d)
      = "root" :: (List.enumFrom 0 d.questions).map (fun p => "q" ++ toString p.1)
    ∧ dotEdges (export_ast_to_dot d)
      = (List.enumFrom 0 d.questions).map (fun p => ("root", "q" ++ toString p.1))
    ∧ (dotNodeIds (export_ast_to_dot d)).length = d.questions.length + 1
    ∧ (dotEdges (export_ast_to_dot d)).length = d.questions.length
    ∧ List.Forall₂ (fun (q : QuestionNode) (p : String × String) =>
        occursIn (toString q.marks).toList p.2.toList = true)
        d.questions ((dotNodes (export_ast_to_dot d)).tail) := by
  have hnodes : dotNodes (export_ast_to_dot d)
      = ("root", rootLabel d)
        :: (List.enumFrom 0 d.questions).map
            (fun p => ("q" ++ toString p.1, qLabel p.2)) := by
    simp [export_ast_to_dot, dotNodes, dotNodes_append, dotNodes_questionLines]
  have hedges : dotEdges (export_ast_to_dot d)
      = (List.enumFrom 0 d.questions).map (fun p => ("root", "q" ++ toString p.1)) := by
    simp [export_ast_to_dot, dotEdges, dotEdges_append, dotEdges_questionLines]
  have hids : dotNodeIds (export_ast_to_dot d)
      = "root" :: (List.enumFrom 0 d.questions).map (fun p => "q" ++ toString p.1) := by
    rw [dotNodeIds_eq_map, hnodes]
    simp
  refine ⟨hids, hedges, ?_, ?_, ?_⟩
  · simp [hids, List.enumFrom_length]
  · simp [hedges, List.enumFrom_length]
  · rw [hnodes]
    simp only [List.tail_cons]
    have : ∀ (i : Nat) (qs : List QuestionNode),
        List.Forall₂ (fun (q : QuestionNode) (p : String × String) =>
          occursIn (toString q.marks).toList p.2.toList = true)
          qs ((List.enumFrom i qs).map (fun p => ("q" ++ toString p.1, qLabel p.2))) := by
      intro i qs
      induction qs generalizing i with
      | nil => constructor
      | cons q rest ih =>
        exact List.Forall₂.cons (qLabel_shows_marks q) (ih (i + 1))
    exact this 0 d.questions

/-- C5 (counterexample): on a concrete one-question document the emitted
question label is a fixed placeholder with the marks: it contains neither
the question's text ("Hello ...") nor its difficulty ("Easy"), and it is
identical to the label of a question with different text, difficulty,
status and Bloom's level — so the label does not carry a text preview,
a status or a difficulty. -/
theorem export_label_counterexample :
    dotNodes (export_ast_to_dot cexDoc)
      = [("root", rootLabel cexDoc), ("q0", qLabel cexQuestion)]
    ∧ occursIn "Hello".toList (qLabel cexQuestion).toList = false
    ∧ occursIn "Easy".toList (qLabel cexQuestion).toList = false
    ∧ qLabel cexQuestion
        = qLabel { text := "Completely different text", marks := 5,
                   difficulty := "Hard", estimated_time := 9,
                   syllabus_topic := "X", status_flag := 1,
                   blooms_level := "Creating" } :=
  ⟨by decide, by decide, by decide, rfl⟩

/-- C6: a freshly created question node has every annotation field at its
unset sentinel: difficulty, syllabus topic and Bloom's level are the
"N/A" placeholder, the status flag is 0, and the estimated time defaults
to 0; the given text and marks are stored unchanged. -/
theorem create_question_node_unset (text : String) (marks : Int) :
    (create_question_node text marks).difficulty = "N/A"
    ∧ (create_question_node text marks).syllabus_topic = "N/A"
    ∧ (create_question_node text marks).blooms_level = "N/A"
    ∧ (create_question_node text marks).status_flag = 0
    ∧ (create_question_node text marks).estimated_time = 0
    ∧ (create_question_node text marks).text = text
    ∧ (create_question_node text marks).marks = marks :=
  ⟨rfl, rfl, rfl, rfl, rfl, rfl, rfl⟩

/-- C7: the driver exits with status 0 exactly when every stage succeeds
(two arguments, input file opened, `yyparse` returned 0, and a non-null
root), and its only other exit status is 1. -/
theorem mainDriver_exit (argc : Nat) (openOk : Bool) (pr : Int)
    (root : Option ASTNode) :
    (mainDriver argc openOk pr root = 0
      ↔ argc = 2 ∧ openOk = true ∧ pr = 0 ∧ root ≠ none)
    ∧ (mainDriver argc openOk pr root = 0 ∨ mainDriver argc openOk pr root = 1) := by
  unfold mainDriver
  constructor
  · split_ifs with h1 h2 h3 <;> first
      | (simp_all; done)
      | (simp_all; tauto)
  · split_ifs <;> simp

/-- C8: in the spec-modelled Duplicate Detector a later question `j` is
marked iff at least one earlier question's token-overlap similarity with
it meets the threshold `num / den`; and the flags of the first questions
never depend on later ones — appending further questions leaves them
unchanged — so an earlier question is never marked through its pair with
a later one. -/
theorem dup_detector_marks (qs : List String) (num den : Nat) (j : Nat)
    (hj : j < qs.length) :
    ((dupFlags qs num den).getD j false = true
      ↔ ∃ p ∈ qs.take j, simMeets p (qs.getD j "") num den = true)
    ∧ (∀ extra, (dupFlags (qs ++ extra) num den).take qs.length
        = dupFlags qs num den)
    ∧ (dupFlags qs num den).length = qs.length := by
  refine ⟨?_, ?_, dupFlagsAux_length num den [] qs⟩
  · simpa using dupFlagsAux_getD num den [] qs j hj
  · intro extra
    show (dupFlagsAux num den [] (qs ++ extra)).take qs.length
        = dupFlagsAux num den [] qs
    rw [dupFlagsAux_append,
      show qs.length = (dupFlagsAux num den [] qs).length from
        (dupFlagsAux_length num den [] qs).symm]
    exact List.take_left ..

/-- Witness for C8: with threshold 3/4, in the sequence `dupDemo` the
question at position 2 (identical to position 0) is marked while the
first two are not. -/
theorem dup_detector_marks_witness :
    2 < dupDemo.length
    ∧ (((dupFlags dupDemo 3 4).getD 2 false = true
        ↔ ∃ p ∈ dupDemo.take 2, simMeets p (dupDemo.getD 2 "") 3 4 = true)
      ∧ (∀ extra, (dupFlags (dupDemo ++ extra) 3 4).take dupDemo.length
          = dupFlags dupDemo 3 4)
      ∧ (dupFlags dupDemo 3 4).length = dupDemo.length)
    ∧ dupFlags dupDemo 3 4 = [false, false, true] :=
  ⟨by decide, dup_detector_marks dupDemo 3 4 2 (by decide), by decide⟩

/-- Witness for C7: with two arguments, an opened input file, a zero
parse result and a non-null root, the driver exits 0. -/
theorem mainDriver_exit_witness :
    mainDriver 2 true 0
      (some { subject := "CS", total_marks := 32, total_time := 60,
              syllabus_path := "s", questions := [] }) = 0 :=
  (mainDriver_exit 2 true 0
    (some { subject := "CS", total_marks := 32, total_time := 60,
            syllabus_path := "s", questions := [] })).1.mpr
    ⟨rfl, rfl, rfl, by simp⟩

/-- C9: the marks-validation traversal returns the question list exactly
as it received it — every question, hence every field of every question,
is unchanged — while computing the same sum as `validate_marks`. -/
theorem validate_marks_frame (qs : List SQuestion) (acc : Int) :
    (validate_marks_run qs acc).1 = qs
    ∧ (validate_marks_run qs acc).2 = sumLoop acc qs := by
  induction qs generalizing acc with
  | nil => exact ⟨rfl, rfl⟩
  | cons q rest ih =>
    refine ⟨?_, ?_⟩ <;> simp [validate_marks_run, sumLoop, (ih (acc + q.marks)).1,
      (ih (acc + q.marks)).2]

/-- C10: on the empty question list the validator computes sum 0 and the
match flag is true iff the declared total is 0. -/
theorem validate_marks_empty (t : Int) :
    (validate_marks [] t).1 = 0
    ∧ ((validate_marks [] t).2 = true ↔ t = 0) := by
  constructor
  · rfl
  · change ((0 : Int) == t) = true ↔ t = 0
    rw [beq_iff_eq]
    exact eq_comm

end SmartExam
